import Mathlib

/-!
# Verification of the contour engine of "The Topography of Care"

Shallow embedding of `contour.js` (module `ContourModule`): Gaussian scalar-field
generation from resource points, threshold/contour computation, and the
grid-to-geographic / grid-to-pixel coordinate transforms.

Modelling conventions:
* JavaScript numbers are idealized as real numbers (`ℝ`), except where the
  source can produce `Infinity`/`NaN` (division by a zero cell size in the
  cutoff-range computation, the `Infinity`/`-Infinity` seeds of the min/max
  scan, and the `normalizedValue` division).  Those places are embedded with
  the `JsNum` type below, which carries the IEEE special values and follows
  JavaScript arithmetic and comparison semantics (ignoring rounding and
  negative zero, which never arises here: every zero produced by the source's
  subtractions of equal finite operands is `+0`).  Subnormal underflow is
  likewise idealized away (`Real.exp` is never zero, whereas `Math.exp`
  underflows to `+0` below about `-745`, and a `Float32Array` store flushes
  below about `1e-45`); every concrete counterexample input is therefore
  chosen so that the magnitudes the program computes there — e.g. `exp(-10)`
  — are comfortably representable even in `Float32`, keeping the
  idealization faithful at those inputs.
* `Float32Array` accumulation is modelled as exact real accumulation into a
  total function `ℤ → ℝ` (all writes stay inside `0 .. 150*150-1`).
* `CONFIG` is taken at its default values from the source (the claims speak of
  "the configured type profiles"); `updateConfig` is never invoked in the
  verified pipeline.
* The ring-geometry extraction performed by the external `d3.contours()` call
  is not part of this repository's source; per its documented contract (and
  the spec) it returns one contour per threshold with `value` equal to that
  threshold, with ring coordinates produced by marching squares.  The geometry
  is abstracted as a `geom` parameter; everything the claims state about
  `generateContours` concerns only the per-threshold structure.
-/

noncomputable section

open Classical

/-- JavaScript (IEEE-754 double, idealized mantissa) numbers: a finite real,
`Infinity`, `-Infinity`, or `NaN`. -/
inductive JsNum where
  | fin (x : ℝ)
  | inf
  | ninf
  | nan

/-- Integer-valued JavaScript numbers, as produced by `Math.floor`/`Math.ceil`
(which map `±Infinity` and `NaN` to themselves). -/
inductive JsInt where
  | fin (n : ℤ)
  | inf
  | ninf
  | nan

/-- JavaScript `<` comparison: any comparison involving `NaN` is false. -/
def JsNum.lt : JsNum → JsNum → Prop
  | .fin a, .fin b => a < b
  | .fin _, .inf => True
  | .ninf, .fin _ => True
  | .ninf, .inf => True
  | _, _ => False

/-- JavaScript addition on `JsNum` (`Infinity + -Infinity = NaN`). -/
def JsNum.add : JsNum → JsNum → JsNum
  | .nan, _ => .nan
  | _, .nan => .nan
  | .inf, .ninf => .nan
  | .ninf, .inf => .nan
  | .inf, _ => .inf
  | _, .inf => .inf
  | .ninf, _ => .ninf
  | _, .ninf => .ninf
  | .fin a, .fin b => .fin (a + b)

/-- JavaScript subtraction on `JsNum` (`Infinity - Infinity = NaN`). -/
def JsNum.sub : JsNum → JsNum → JsNum
  | .nan, _ => .nan
  | _, .nan => .nan
  | .inf, .inf => .nan
  | .ninf, .ninf => .nan
  | .inf, _ => .inf
  | .ninf, _ => .ninf
  | .fin _, .inf => .ninf
  | .fin _, .ninf => .inf
  | .fin a, .fin b => .fin (a - b)

/-- JavaScript multiplication on `JsNum` (`Infinity * 0 = NaN`). -/
def JsNum.mul : JsNum → JsNum → JsNum
  | .nan, _ => .nan
  | _, .nan => .nan
  | .inf, .inf => .inf
  | .inf, .ninf => .ninf
  | .ninf, .inf => .ninf
  | .ninf, .ninf => .inf
  | .inf, .fin b => if 0 < b then .inf else if b < 0 then .ninf else .nan
  | .fin a, .inf => if 0 < a then .inf else if a < 0 then .ninf else .nan
  | .ninf, .fin b => if 0 < b then .ninf else if b < 0 then .inf else .nan
  | .fin a, .ninf => if 0 < a then .ninf else if a < 0 then .inf else .nan
  | .fin a, .fin b => .fin (a * b)

/-- JavaScript division on `JsNum`: a nonzero finite number divided by zero
gives a signed infinity, `0/0` gives `NaN`, finite over infinite gives `0`
(we never produce a negative zero: a `+0` denominator is the only zero that
occurs in the source). -/
def JsNum.div : JsNum → JsNum → JsNum
  | .nan, _ => .nan
  | _, .nan => .nan
  | .inf, .inf => .nan
  | .inf, .ninf => .nan
  | .ninf, .inf => .nan
  | .ninf, .ninf => .nan
  | .inf, .fin b => if 0 ≤ b then .inf else .ninf
  | .ninf, .fin b => if 0 ≤ b then .ninf else .inf
  | .fin _, .inf => .fin 0
  | .fin _, .ninf => .fin 0
  | .fin a, .fin b =>
      if b = 0 then (if 0 < a then .inf else if a < 0 then .ninf else .nan)
      else .fin (a / b)

/-- `Math.floor`, which fixes `±Infinity` and `NaN`. -/
def JsNum.floor : JsNum → JsInt
  | .fin x => .fin ⌊x⌋
  | .inf => .inf
  | .ninf => .ninf
  | .nan => .nan

/-- `Math.ceil`, which fixes `±Infinity` and `NaN`. -/
def JsNum.ceil : JsNum → JsInt
  | .fin x => .fin ⌈x⌉
  | .inf => .inf
  | .ninf => .ninf
  | .nan => .nan

/-- `Math.max(n, ·)` with an integer first argument (`Math.max` with a `NaN`
argument is `NaN`; `Math.max(n, -Infinity) = n`). -/
def JsInt.maxI (n : ℤ) : JsInt → JsInt
  | .fin k => .fin (max n k)
  | .inf => .inf
  | .ninf => .fin n
  | .nan => .nan

/-- `Math.min(n, ·)` with an integer first argument (`Math.min` with a `NaN`
argument is `NaN`; `Math.min(n, Infinity) = n`). -/
def JsInt.minI (n : ℤ) : JsInt → JsInt
  | .fin k => .fin (min n k)
  | .inf => .fin n
  | .ninf => .ninf
  | .nan => .nan

/-- The integers from `a` to `b` inclusive (empty when `b < a`). -/
def intRange (a b : ℤ) : List ℤ :=
  (List.range (b + 1 - a).toNat).map (fun (k : ℕ) => a + (k : ℤ))

/-- The index sequence visited by `for (let i = lo; i <= hi; i++)` for the
loop bounds produced by the source's clamped `Math.max(0, floor(...))` /
`Math.min(size-1, ceil(...))` computation.  A `NaN` or `+Infinity` lower
bound, or a `NaN` or `-Infinity` upper bound, yields zero iterations (the
loop test is false immediately).  A `-Infinity` lower bound or `+Infinity`
upper bound would loop forever in JavaScript, but is unreachable here: the
lower bound passes through `Math.max(0, ·)` (never `-Infinity`) and the upper
bound through `Math.min(size-1, ·)` (never `+Infinity`). -/
def loopRange : JsInt → JsInt → List ℤ
  | .fin a, .fin b => intRange a b
  | _, _ => []

/-- Per-type Gaussian parameters: spread `sigma` (degrees) and peak
`amplitude`. -/
structure TypeProfile where
  sigma : ℝ
  amplitude : ℝ

/-- `CONFIG.typeParams`: the per-resource-type Gaussian profiles. -/
def typeParams (t : String) : Option TypeProfile :=
  if t = "hospital" then some ⟨0.006, 1.0⟩
  else if t = "clinic" then some ⟨0.003, 0.5⟩
  else if t = "library" then some ⟨0.005, 0.7⟩
  else if t = "social" then some ⟨0.004, 0.8⟩
  else if t = "pharmacy" then some ⟨0.002, 0.3⟩
  else if t = "community" then some ⟨0.003, 0.5⟩
  else if t = "kindergarten" then some ⟨0.002, 0.4⟩
  else none

/-- `CONFIG.defaultParams`: profile for unrecognized types. -/
def defaultParams : TypeProfile := ⟨0.003, 0.5⟩

/-- `CONFIG.typeParams[resource.type] || CONFIG.defaultParams`. -/
def profileFor (t : String) : TypeProfile := (typeParams t).getD defaultParams

/-- `CONFIG.cutoffMultiplier`. -/
def cutoffMultiplier : ℝ := 3

/-- A resource point (`lat`, `lng`, `type`; the `id`/`name`/`address` fields
play no role in the engine). -/
structure Resource where
  lat : ℝ
  lng : ℝ
  rtype : String

/-- A geographic window `{south, west, north, east}`. -/
structure Bounds where
  south : ℝ
  west : ℝ
  north : ℝ
  east : ℝ

/-- Cell width in degrees: `(bounds.east - bounds.west) / gridWidth`. -/
def cellW (b : Bounds) : ℝ := (b.east - b.west) / 150

/-- Cell height in degrees: `(bounds.north - bounds.south) / gridHeight`. -/
def cellH (b : Bounds) : ℝ := (b.north - b.south) / 150

/-- The Gaussian energy a resource `r` contributes to the cell `(x, y)`:
`amplitude * exp(-distSq / (2 * sigmaSq))` with `distSq` the squared
Euclidean degree-space distance from the cell center
`(west + (x+0.5)*cellWidth, south + (y+0.5)*cellHeight)` to the point. -/
def gauss (r : Resource) (b : Bounds) (x y : ℤ) : ℝ :=
  (profileFor r.rtype).amplitude *
    Real.exp
      (-(((b.south + ((y : ℝ) + 0.5) * cellH b) - r.lat) *
            ((b.south + ((y : ℝ) + 0.5) * cellH b) - r.lat) +
          ((b.west + ((x : ℝ) + 0.5) * cellW b) - r.lng) *
            ((b.west + ((x : ℝ) + 0.5) * cellW b) - r.lng)) /
        (2 * ((profileFor r.rtype).sigma * (profileFor r.rtype).sigma)))

/-- The x-indices visited for resource `r`:
`minX = Math.max(0, Math.floor((lng - cutoff - west) / cellWidth))` up to
`maxX = Math.min(gridWidth - 1, Math.ceil((lng + cutoff - west) / cellWidth))`,
with the divisions carried out in JavaScript semantics (`JsNum`). -/
def xRangeList (r : Resource) (b : Bounds) : List ℤ :=
  loopRange
    (JsInt.maxI 0 (JsNum.floor (JsNum.div
      (.fin (r.lng - cutoffMultiplier * (profileFor r.rtype).sigma - b.west))
      (.fin (cellW b)))))
    (JsInt.minI 149 (JsNum.ceil (JsNum.div
      (.fin (r.lng + cutoffMultiplier * (profileFor r.rtype).sigma - b.west))
      (.fin (cellW b)))))

/-- The y-indices visited for resource `r` (as `xRangeList`, with `lat`,
`south`, `cellHeight`). -/
def yRangeList (r : Resource) (b : Bounds) : List ℤ :=
  loopRange
    (JsInt.maxI 0 (JsNum.floor (JsNum.div
      (.fin (r.lat - cutoffMultiplier * (profileFor r.rtype).sigma - b.south))
      (.fin (cellH b)))))
    (JsInt.minI 149 (JsNum.ceil (JsNum.div
      (.fin (r.lat + cutoffMultiplier * (profileFor r.rtype).sigma - b.south))
      (.fin (cellH b)))))

/-- One inner-loop step: `field[y * gridWidth + x] += energy`. -/
def cellUpdate (b : Bounds) (r : Resource) (y : ℤ) (g : ℤ → ℝ) (x : ℤ) : ℤ → ℝ :=
  Function.update g (y * 150 + x) (g (y * 150 + x) + gauss r b x y)

/-- The double loop a single resource performs over its clamped cutoff cell
range. -/
def applyResource (b : Bounds) (g : ℤ → ℝ) (r : Resource) : ℤ → ℝ :=
  (yRangeList r b).foldl (fun h y => (xRangeList r b).foldl (cellUpdate b r y) h) g

/-- `generateScalarField(resources, bounds)`: starting from a fresh all-zero
`Float32Array(gridWidth * gridHeight)`, each resource adds its Gaussian
energy to the cells of its clamped cutoff range. -/
def generateScalarField (resources : List Resource) (b : Bounds) : ℤ → ℝ :=
  resources.foldl (applyResource b) (fun _ => 0)

/-- The cell `(x, y)` lies inside the rectangular cutoff cell range the
source computes for resource `r`. -/
def coversCell (r : Resource) (b : Bounds) (x y : ℤ) : Prop :=
  x ∈ xRangeList r b ∧ y ∈ yRangeList r b

instance coversCellDecidable (r : Resource) (b : Bounds) (x y : ℤ) :
    Decidable (coversCell r b x y) :=
  instDecidableAnd

/-- The `Float32Array` field in iteration order (`for (const val of field)`):
flat index `k = y * gridWidth + x`, `k` running over `0 .. 150*150 - 1`. -/
def fieldList (f : ℤ → ℝ) : List ℝ :=
  (List.range (150 * 150)).map (fun (k : ℕ) => f (k : ℤ))

/-- MultiPolygon ring coordinates: a list of polygons, each a list of closed
vertex rings, each a list of `(x, y)` vertices. -/
abbrev Rings := List (List (List (ℝ × ℝ)))

/-- A contour as built by `generateContours`: the d3 contour `value`
(threshold), its ring `coordinates` in grid space, and the `normalizedValue`
the source attaches afterwards. -/
structure Contour where
  value : JsNum
  coordinates : Rings
  normalizedValue : JsNum

/-- One step of the min/max scan:
`if (val < min) min = val; if (val > max) max = val;` with JavaScript
comparisons (`val > max` is `max < val`). -/
def scanStep (p : JsNum × JsNum) (v : ℝ) : JsNum × JsNum :=
  (if JsNum.lt (.fin v) p.1 then .fin v else p.1,
   if JsNum.lt p.2 (.fin v) then .fin v else p.2)

/-- The min/max scan
`let min = Infinity, max = -Infinity; for (const val of field) ...`,
seeds included. -/
def scanMinMax (field : List ℝ) : JsNum × JsNum :=
  field.foldl scanStep (.inf, .ninf)

/-- JavaScript `options.x || default` for an integer option: `undefined`
(`none`) and the falsy `0` both select the default. -/
def jsOrZ (o : Option ℤ) (d : ℤ) : ℤ :=
  match o with
  | none => d
  | some v => if v = 0 then d else v

/-- JavaScript `options.levels || CONFIG.contourLevels` (`0` is falsy). -/
def jsOrN (o : Option ℕ) (d : ℕ) : ℕ :=
  match o with
  | none => d
  | some v => if v = 0 then d else v

/-- `generateContours(field, options)`.

Modelled from the spec: the ring-geometry extraction is delegated to the
external `d3.contours().size([w,h]).thresholds(ts)` generator, whose
marching-squares implementation is not part of this repository.  Per its
documented contract (and spec §4.2) it returns exactly one contour per
requested threshold, carrying `value` equal to that threshold; the ring
geometry itself is abstracted as the parameter `geom`.  The threshold
arithmetic, the `max < 0.01` short-circuit, and the `normalizedValue`
computation are the source's own and are embedded literally (the
`normalizedValue` division in JavaScript semantics, since its denominator
can be zero). -/
def generateContours (geom : ℤ → ℤ → List ℝ → JsNum → Rings) (field : List ℝ)
    (ow oh : Option ℤ) (ol : Option ℕ) : List Contour :=
  let width := jsOrZ ow 150
  let height := jsOrZ oh 150
  let numLevels := jsOrN ol 12
  let mm := scanMinMax field
  if JsNum.lt mm.2 (.fin 0.01) then []
  else
    let step := JsNum.div (JsNum.sub mm.2 mm.1) (.fin ((numLevels : ℝ) + 1))
    let thresholds :=
      (List.range numLevels).map
        (fun (i : ℕ) => JsNum.add mm.1 (JsNum.mul step (.fin ((i : ℝ) + 1))))
    thresholds.map (fun t =>
      { value := t
        coordinates := geom width height field t
        normalizedValue := JsNum.div (JsNum.sub t mm.1) (JsNum.sub mm.2 mm.1) })

/-- The `i`-th (0-based) threshold of the source's split:
`min + step * (i+1)` with `step = (max - min) / (levels + 1)`. -/
def thVal (mn mx : ℝ) (L : ℕ) (i : ℕ) : ℝ :=
  mn + (mx - mn) / ((L : ℝ) + 1) * ((i : ℝ) + 1)

/-- A raster window `{left, top, width, height}`. -/
structure PixelBounds where
  left : ℝ
  top : ℝ
  width : ℝ
  height : ℝ

/-- One vertex of `transformToGeo`:
`[west + x * cellWidth, south + y * cellHeight]`. -/
def toGeoVertex (b : Bounds) (v : ℝ × ℝ) : ℝ × ℝ :=
  (b.west + v.1 * cellW b, b.south + v.2 * cellH b)

/-- `transformToGeo(contours, bounds)`: map every ring vertex from grid space
to geographic coordinates (no axis flip). -/
def transformToGeo (contours : List Contour) (b : Bounds) : List Contour :=
  contours.map (fun c =>
    { c with
      coordinates :=
        c.coordinates.map (fun polygon => polygon.map (fun ring => ring.map (toGeoVertex b))) })

/-- One vertex of `transformToPixels`:
`[left + x * scaleX, top + (gridHeight - y) * scaleY]` with
`scaleX = width/gridWidth`, `scaleY = height/gridHeight` — the
`(gridHeight - y)` term is the vertical flip. -/
def toPixelVertex (pb : PixelBounds) (v : ℝ × ℝ) : ℝ × ℝ :=
  (pb.left + v.1 * (pb.width / 150), pb.top + (150 - v.2) * (pb.height / 150))

/-- A contour after `transformToPixels`: the spread `{...contour}` keeps
`value`, `coordinates`, `normalizedValue`, and a `pixelCoordinates` field is
added. -/
structure PixelContour where
  value : JsNum
  coordinates : Rings
  normalizedValue : JsNum
  pixelCoordinates : Rings

/-- `transformToPixels(contours, pixelBounds)`: keep every contour's fields
and add `pixelCoordinates`, each ring vertex mapped by `toPixelVertex`. -/
def transformToPixels (contours : List Contour) (pb : PixelBounds) : List PixelContour :=
  contours.map (fun c =>
    { value := c.value
      coordinates := c.coordinates
      normalizedValue := c.normalizedValue
      pixelCoordinates :=
        c.coordinates.map (fun polygon => polygon.map (fun ring => ring.map (toPixelVertex pb))) })

/-- The `stats` record `process` returns (the wall-clock `processingTime`
is environment I/O, outside the data path, and not modelled). -/
structure Stats where
  resourceCount : ℕ
  contourLevels : ℕ

/-- The `{contours, field, stats}` record `process` returns. -/
structure ProcessResult where
  contours : List PixelContour
  field : ℤ → ℝ
  stats : Stats

/-- `process(resources, bounds, pixelBounds)`: generate the scalar field,
contour it with the default options, transform to pixel space, and attach
statistics. -/
def process (geom : ℤ → ℤ → List ℝ → JsNum → Rings) (resources : List Resource)
    (b : Bounds) (pb : PixelBounds) : ProcessResult :=
  let field := generateScalarField resources b
  let contours := generateContours geom (fieldList field) none none none
  let pixelContours := transformToPixels contours pb
  { contours := pixelContours
    field := field
    stats := { resourceCount := resources.length, contourLevels := contours.length } }

/-- The nesting structure of a MultiPolygon: the list, per polygon, of its
rings' vertex counts (so two `Rings` values have the same number of
polygons, rings per polygon, and vertices per ring iff their shapes are
equal). -/
def ringShape (r : Rings) : List (List ℕ) :=
  r.map (fun polygon => polygon.map List.length)

/-! ## Helper lemmas: loop index ranges -/

lemma mem_intRange {a b x : ℤ} : x ∈ intRange a b ↔ a ≤ x ∧ x ≤ b := by
  unfold intRange
  simp only [List.mem_map, List.mem_range]
  constructor
  · rintro ⟨k, hk, hkx⟩
    omega
  · rintro ⟨h1, h2⟩
    refine ⟨(x - a).toNat, ?_, ?_⟩ <;> omega

lemma intRange_nodup (a b : ℤ) : (intRange a b).Nodup := by
  unfold intRange
  apply List.Nodup.map
  · intro m n h
    simp only at h
    omega
  · exact List.nodup_range _

lemma loopRange_nodup (j k : JsInt) : (loopRange j k).Nodup := by
  cases j <;> cases k <;> simp [loopRange, intRange_nodup]

lemma mem_loopRange_clamped {lo hi : ℤ} {j k : JsInt} {x : ℤ}
    (h : x ∈ loopRange (JsInt.maxI lo j) (JsInt.minI hi k)) : lo ≤ x ∧ x ≤ hi := by
  cases j <;> cases k <;>
    simp only [JsInt.maxI, JsInt.minI, loopRange, List.not_mem_nil, mem_intRange] at h <;>
    omega

lemma mem_xRangeList {r : Resource} {b : Bounds} {x : ℤ} (h : x ∈ xRangeList r b) :
    0 ≤ x ∧ x ≤ 149 :=
  mem_loopRange_clamped h

lemma mem_yRangeList {r : Resource} {b : Bounds} {y : ℤ} (h : y ∈ yRangeList r b) :
    0 ≤ y ∧ y ≤ 149 :=
  mem_loopRange_clamped h

lemma xRangeList_nodup (r : Resource) (b : Bounds) : (xRangeList r b).Nodup :=
  loopRange_nodup _ _

lemma yRangeList_nodup (r : Resource) (b : Bounds) : (yRangeList r b).Nodup :=
  loopRange_nodup _ _

/-! ## Helper lemmas: pointwise value of the update loops -/

lemma flatIndex_inj {x0 y0 x y : ℤ} (hx0 : 0 ≤ x0 ∧ x0 ≤ 149) (hx : 0 ≤ x ∧ x ≤ 149) :
    y * 150 + x = y0 * 150 + x0 ↔ y = y0 ∧ x = x0 := by
  constructor
  · intro h
    omega
  · rintro ⟨rfl, rfl⟩
    rfl

lemma foldlX_apply (b : Bounds) (r : Resource) (y : ℤ) (xs : List ℤ) (g : ℤ → ℝ)
    (x0 y0 : ℤ) (hx0 : 0 ≤ x0 ∧ x0 ≤ 149)
    (hxs : ∀ x ∈ xs, 0 ≤ x ∧ x ≤ 149) (hnd : xs.Nodup) :
    (xs.foldl (cellUpdate b r y) g) (y0 * 150 + x0) =
      g (y0 * 150 + x0) + (if y = y0 ∧ x0 ∈ xs then gauss r b x0 y else 0) := by
  induction xs generalizing g with
  | nil => simp
  | cons x xs ih =>
      have hxtail : ∀ z ∈ xs, 0 ≤ z ∧ z ≤ 149 := fun z hz => hxs z (List.mem_cons_of_mem _ hz)
      have hndtail : xs.Nodup := hnd.of_cons
      have hxhead : 0 ≤ x ∧ x ≤ 149 := hxs x (List.mem_cons_self _ _)
      rw [List.foldl_cons, ih (cellUpdate b r y g x) hxtail hndtail]
      by_cases hk : y = y0 ∧ x = x0
      · obtain ⟨rfl, rfl⟩ := hk
        have hnotin : x ∉ xs := (List.nodup_cons.mp hnd).1
        rw [if_neg (fun hc => hnotin hc.2)]
        unfold cellUpdate
        rw [Function.update_same]
        simp
      · have hne : y * 150 + x ≠ y0 * 150 + x0 := fun hc =>
          hk ((flatIndex_inj hx0 hxhead).mp hc)
        unfold cellUpdate
        rw [Function.update_noteq (fun hc => hne hc.symm)]
        have hiff : (y = y0 ∧ x0 ∈ xs) ↔ (y = y0 ∧ x0 ∈ x :: xs) := by
          constructor
          · rintro ⟨rfl, hm⟩
            exact ⟨rfl, List.mem_cons_of_mem _ hm⟩
          · rintro ⟨rfl, hm⟩
            rcases List.mem_cons.mp hm with hx | hx
            · exact absurd ⟨rfl, hx.symm⟩ hk
            · exact ⟨rfl, hx⟩
        simp only [hiff]

lemma foldlY_apply (b : Bounds) (r : Resource) (ys xs : List ℤ) (g : ℤ → ℝ)
    (x0 y0 : ℤ) (hx0 : 0 ≤ x0 ∧ x0 ≤ 149)
    (hxs : ∀ x ∈ xs, 0 ≤ x ∧ x ≤ 149) (hndx : xs.Nodup) (hndy : ys.Nodup) :
    (ys.foldl (fun h y => xs.foldl (cellUpdate b r y) h) g) (y0 * 150 + x0) =
      g (y0 * 150 + x0) + (if y0 ∈ ys ∧ x0 ∈ xs then gauss r b x0 y0 else 0) := by
  induction ys generalizing g with
  | nil => simp
  | cons y ys ih =>
      rw [List.foldl_cons, ih (xs.foldl (cellUpdate b r y) g) hndy.of_cons,
        foldlX_apply b r y xs g x0 y0 hx0 hxs hndx]
      simp only [List.mem_cons]
      by_cases hx : x0 ∈ xs
      · by_cases hy : y = y0
        · subst hy
          have hnotin : y ∉ ys := (List.nodup_cons.mp hndy).1
          simp [hx, hnotin]
        · have hy2 : ¬(y0 = y) := fun h => hy h.symm
          simp [hx, hy, hy2]
      · simp [hx]

lemma applyResource_apply (b : Bounds) (r : Resource) (g : ℤ → ℝ) (x0 y0 : ℤ)
    (hx0 : 0 ≤ x0 ∧ x0 ≤ 149) :
    applyResource b g r (y0 * 150 + x0) =
      g (y0 * 150 + x0) + (if coversCell r b x0 y0 then gauss r b x0 y0 else 0) := by
  unfold applyResource coversCell
  rw [foldlY_apply b r _ _ g x0 y0 hx0 (fun x hx => mem_xRangeList hx)
    (xRangeList_nodup r b) (yRangeList_nodup r b)]
  have hcomm : (y0 ∈ yRangeList r b ∧ x0 ∈ xRangeList r b) ↔
      (x0 ∈ xRangeList r b ∧ y0 ∈ yRangeList r b) := and_comm
  simp only [hcomm]

lemma generateScalarField_foldl (b : Bounds) (rs : List Resource) (g : ℤ → ℝ)
    (x0 y0 : ℤ) (hx0 : 0 ≤ x0 ∧ x0 ≤ 149) :
    (rs.foldl (applyResource b) g) (y0 * 150 + x0) =
      g (y0 * 150 + x0) +
        (rs.map (fun r => if coversCell r b x0 y0 then gauss r b x0 y0 else 0)).sum := by
  induction rs generalizing g with
  | nil => simp
  | cons r rs ih =>
      rw [List.foldl_cons, ih (applyResource b g r), applyResource_apply b r g x0 y0 hx0]
      simp only [List.map_cons, List.sum_cons]
      ring

/-! ## Helper lemmas: configuration and Gaussian bounds -/

lemma profileFor_pos (t : String) :
    0 < (profileFor t).sigma ∧ 0 < (profileFor t).amplitude ∧ (profileFor t).amplitude ≤ 1 := by
  unfold profileFor typeParams defaultParams
  split_ifs <;> norm_num

lemma gauss_pos (r : Resource) (b : Bounds) (x y : ℤ) : 0 < gauss r b x y := by
  unfold gauss
  exact mul_pos (profileFor_pos r.rtype).2.1 (Real.exp_pos _)

lemma gauss_le_one (r : Resource) (b : Bounds) (x y : ℤ) : gauss r b x y ≤ 1 := by
  unfold gauss
  have hexp : Real.exp
      (-(((b.south + ((y : ℝ) + 0.5) * cellH b) - r.lat) *
            ((b.south + ((y : ℝ) + 0.5) * cellH b) - r.lat) +
          ((b.west + ((x : ℝ) + 0.5) * cellW b) - r.lng) *
            ((b.west + ((x : ℝ) + 0.5) * cellW b) - r.lng)) /
        (2 * ((profileFor r.rtype).sigma * (profileFor r.rtype).sigma))) ≤ 1 := by
    rw [Real.exp_le_one_iff]
    apply div_nonpos_of_nonpos_of_nonneg
    · have h1 : 0 ≤ ((b.south + ((y : ℝ) + 0.5) * cellH b) - r.lat) *
          ((b.south + ((y : ℝ) + 0.5) * cellH b) - r.lat) := mul_self_nonneg _
      have h2 : 0 ≤ ((b.west + ((x : ℝ) + 0.5) * cellW b) - r.lng) *
          ((b.west + ((x : ℝ) + 0.5) * cellW b) - r.lng) := mul_self_nonneg _
      linarith
    · have := mul_self_nonneg (profileFor r.rtype).sigma
      linarith
  calc (profileFor r.rtype).amplitude * Real.exp _ ≤
      (profileFor r.rtype).amplitude * 1 := by
        exact mul_le_mul_of_nonneg_left hexp (le_of_lt (profileFor_pos r.rtype).2.1)
    _ ≤ 1 := by
        rw [mul_one]
        exact (profileFor_pos r.rtype).2.2

lemma list_sum_bounds (l : List ℝ) (h : ∀ v ∈ l, 0 ≤ v ∧ v ≤ 1) :
    0 ≤ l.sum ∧ l.sum ≤ (l.length : ℝ) := by
  induction l with
  | nil => simp
  | cons v l ih =>
      have hv := h v (List.mem_cons_self _ _)
      have htail := ih (fun w hw => h w (List.mem_cons_of_mem _ hw))
      simp only [List.sum_cons, List.length_cons]
      push_cast
      constructor <;> linarith [htail.1, htail.2, hv.1, hv.2]

/-! ## Helper lemmas: cutoff cell range for non-degenerate cell sizes -/

lemma xRangeList_eq (r : Resource) (b : Bounds) (h : cellW b ≠ 0) :
    xRangeList r b =
      intRange
        (max 0 ⌊(r.lng - cutoffMultiplier * (profileFor r.rtype).sigma - b.west) / cellW b⌋)
        (min 149 ⌈(r.lng + cutoffMultiplier * (profileFor r.rtype).sigma - b.west) / cellW b⌉) := by
  unfold xRangeList
  simp [JsNum.div, h, JsNum.floor, JsNum.ceil, JsInt.maxI, JsInt.minI, loopRange]

lemma yRangeList_eq (r : Resource) (b : Bounds) (h : cellH b ≠ 0) :
    yRangeList r b =
      intRange
        (max 0 ⌊(r.lat - cutoffMultiplier * (profileFor r.rtype).sigma - b.south) / cellH b⌋)
        (min 149 ⌈(r.lat + cutoffMultiplier * (profileFor r.rtype).sigma - b.south) / cellH b⌉) := by
  unfold yRangeList
  simp [JsNum.div, h, JsNum.floor, JsNum.ceil, JsInt.maxI, JsInt.minI, loopRange]

/-- Pointwise value of `generateScalarField`: the cell `(x0, y0)` holds the
sum, over exactly those resources whose cutoff cell range covers it, of the
Gaussian contribution. -/
lemma generateScalarField_apply (rs : List Resource) (b : Bounds) (x0 y0 : ℤ)
    (hx0 : 0 ≤ x0 ∧ x0 ≤ 149) :
    generateScalarField rs b (y0 * 150 + x0) =
      (rs.map (fun r => if coversCell r b x0 y0 then gauss r b x0 y0 else 0)).sum := by
  unfold generateScalarField
  rw [generateScalarField_foldl b rs _ x0 y0 hx0]
  simp

/-! ## Claim theorems -/

/-- C1: For every list of points, every geographic window with non-zero cell
sizes, and the configured type profiles, the value `generateScalarField`
assigns to a grid cell equals the sum, over all points whose cutoff cell
range covers that cell, of `amplitude * exp(-d^2/(2*sigma^2))` where `d` is
the Euclidean degree-space distance from the cell center
`(west + (x+0.5)*cellWidth, south + (y+0.5)*cellHeight)` to the point, with
the profile falling back to the default for unrecognized types (the fallback
and the distance formula are built into `gauss` and `coversCell`); and for a
single point located exactly at an in-range cell's center, that cell's value
equals the point's profile amplitude exactly. -/
theorem C1_generateScalarField_gaussian_sum :
    (∀ (resources : List Resource) (b : Bounds) (x y : ℤ),
        0 ≤ x → x < 150 → 0 ≤ y → y < 150 →
        generateScalarField resources b (y * 150 + x) =
          (resources.map (fun r => if coversCell r b x y then gauss r b x y else 0)).sum) ∧
    (∀ (r : Resource) (b : Bounds) (x y : ℤ),
        b.west < b.east → b.south < b.north →
        0 ≤ x → x < 150 → 0 ≤ y → y < 150 →
        r.lng = b.west + ((x : ℝ) + 0.5) * cellW b →
        r.lat = b.south + ((y : ℝ) + 0.5) * cellH b →
        generateScalarField [r] b (y * 150 + x) = (profileFor r.rtype).amplitude) := by
  constructor
  · intro resources b x y hx0 hx1 hy0 hy1
    exact generateScalarField_apply resources b x y ⟨hx0, by omega⟩
  · intro r b x y hwe hsn hx0 hx1 hy0 hy1 hlng hlat
    obtain ⟨hσ, hA, hA1⟩ := profileFor_pos r.rtype
    have hcw : 0 < cellW b := by
      unfold cellW
      apply div_pos <;> [linarith; norm_num]
    have hch : 0 < cellH b := by
      unfold cellH
      apply div_pos <;> [linarith; norm_num]
    have hcpos : 0 < cutoffMultiplier * (profileFor r.rtype).sigma := by
      unfold cutoffMultiplier
      exact mul_pos (by norm_num) hσ
    have hx : x ∈ xRangeList r b := by
      rw [xRangeList_eq r b (ne_of_gt hcw), mem_intRange]
      have hdiv1 : (r.lng - cutoffMultiplier * (profileFor r.rtype).sigma - b.west) / cellW b =
          (x : ℝ) + 0.5 - cutoffMultiplier * (profileFor r.rtype).sigma / cellW b := by
        rw [hlng]
        field_simp
        ring
      have hdiv2 : (r.lng + cutoffMultiplier * (profileFor r.rtype).sigma - b.west) / cellW b =
          (x : ℝ) + 0.5 + cutoffMultiplier * (profileFor r.rtype).sigma / cellW b := by
        rw [hlng]
        field_simp
        ring
      have hfrac : 0 < cutoffMultiplier * (profileFor r.rtype).sigma / cellW b :=
        div_pos hcpos hcw
      constructor
      · rw [max_le_iff]
        refine ⟨hx0, ?_⟩
        have hlt : (r.lng - cutoffMultiplier * (profileFor r.rtype).sigma - b.west) / cellW b <
            ((x + 1 : ℤ) : ℝ) := by
          rw [hdiv1]
          push_cast
          linarith
        have := Int.floor_lt.mpr hlt
        omega
      · rw [le_min_iff]
        refine ⟨by omega, ?_⟩
        have hge : ((x : ℤ) : ℝ) ≤
            (r.lng + cutoffMultiplier * (profileFor r.rtype).sigma - b.west) / cellW b := by
          rw [hdiv2]
          linarith
        exact_mod_cast le_trans hge (Int.le_ceil _)
    have hy : y ∈ yRangeList r b := by
      rw [yRangeList_eq r b (ne_of_gt hch), mem_intRange]
      have hdiv1 : (r.lat - cutoffMultiplier * (profileFor r.rtype).sigma - b.south) / cellH b =
          (y : ℝ) + 0.5 - cutoffMultiplier * (profileFor r.rtype).sigma / cellH b := by
        rw [hlat]
        field_simp
        ring
      have hdiv2 : (r.lat + cutoffMultiplier * (profileFor r.rtype).sigma - b.south) / cellH b =
          (y : ℝ) + 0.5 + cutoffMultiplier * (profileFor r.rtype).sigma / cellH b := by
        rw [hlat]
        field_simp
        ring
      have hfrac : 0 < cutoffMultiplier * (profileFor r.rtype).sigma / cellH b :=
        div_pos hcpos hch
      constructor
      · rw [max_le_iff]
        refine ⟨hy0, ?_⟩
        have hlt : (r.lat - cutoffMultiplier * (profileFor r.rtype).sigma - b.south) / cellH b <
            ((y + 1 : ℤ) : ℝ) := by
          rw [hdiv1]
          push_cast
          linarith
        have := Int.floor_lt.mpr hlt
        omega
      · rw [le_min_iff]
        refine ⟨by omega, ?_⟩
        have hge : ((y : ℤ) : ℝ) ≤
            (r.lat + cutoffMultiplier * (profileFor r.rtype).sigma - b.south) / cellH b := by
          rw [hdiv2]
          linarith
        exact_mod_cast le_trans hge (Int.le_ceil _)
    rw [generateScalarField_apply [r] b x y ⟨hx0, by omega⟩]
    simp only [List.map_cons, List.map_nil, List.sum_cons, List.sum_nil, add_zero]
    rw [if_pos ⟨hx, hy⟩]
    unfold gauss
    have h1 : (b.south + ((y : ℝ) + 0.5) * cellH b) - r.lat = 0 := by
      rw [hlat]
      ring
    have h2 : (b.west + ((x : ℝ) + 0.5) * cellW b) - r.lng = 0 := by
      rw [hlng]
      ring
    rw [h1, h2]
    norm_num

/-- Witness for C1: the empty point list over the unit window, and a hospital
point at the exact center of cell `(75, 75)` of the window `[0,150]^2`
(cell sizes `1`), whose cell value is then the hospital amplitude. -/
theorem C1_witness :
    generateScalarField [] ⟨0, 0, 1, 1⟩ (0 * 150 + 0) =
      (([] : List Resource).map
        (fun r => if coversCell r ⟨0, 0, 1, 1⟩ 0 0 then gauss r ⟨0, 0, 1, 1⟩ 0 0 else 0)).sum ∧
    generateScalarField [⟨75.5, 75.5, "hospital"⟩] ⟨0, 0, 150, 150⟩ (75 * 150 + 75) =
      (profileFor "hospital").amplitude :=
  ⟨C1_generateScalarField_gaussian_sum.1 [] ⟨0, 0, 1, 1⟩ 0 0 (by norm_num) (by norm_num)
      (by norm_num) (by norm_num),
   C1_generateScalarField_gaussian_sum.2 ⟨75.5, 75.5, "hospital"⟩ ⟨0, 0, 150, 150⟩ 75 75
      (by norm_num) (by norm_num) (by norm_num) (by norm_num) (by norm_num) (by norm_num)
      (by unfold cellW; norm_num) (by unfold cellH; norm_num)⟩

lemma profileFor_hospital : profileFor "hospital" = ⟨0.006, 1.0⟩ := rfl

/-- C4 counterexample: a hospital point at `(0.0755, 0.0755)` (the center of
cell `(75, 75)`) in the window `[0, 0.15]^2`, cell sizes `0.001` degrees
(the spec's "0.001 ≈ 100m" working scale).  With `cutoff = 3*sigma = 0.018`
the clamped rectangular cutoff cell range is `[57..94] x [57..94]`.  The
center of the corner cell `(94, 94)` is at `(0.0945, 0.0945)`, Euclidean
distance `0.019 * sqrt 2 ≈ 0.0269` from the point — beyond the cutoff
`0.018` — yet the cell lies inside the rectangle and receives the Gaussian
contribution `exp(-0.000722/0.000072) = exp(-10.027...) ≈ 4.4e-5`, a
magnitude comfortably representable even in `Float32` (no underflow), so
the cell does not keep its pre-existing value `0`. -/
theorem C4_cutoff_counterexample :
    (((0 : ℝ) + ((94 : ℝ) + 0.5) * cellW ⟨0, 0, 0.15, 0.15⟩ - 0.0755) *
          ((0 : ℝ) + ((94 : ℝ) + 0.5) * cellW ⟨0, 0, 0.15, 0.15⟩ - 0.0755) +
        ((0 : ℝ) + ((94 : ℝ) + 0.5) * cellH ⟨0, 0, 0.15, 0.15⟩ - 0.0755) *
          ((0 : ℝ) + ((94 : ℝ) + 0.5) * cellH ⟨0, 0, 0.15, 0.15⟩ - 0.0755) >
      (cutoffMultiplier * (profileFor "hospital").sigma) *
        (cutoffMultiplier * (profileFor "hospital").sigma)) ∧
    generateScalarField [⟨0.0755, 0.0755, "hospital"⟩] ⟨0, 0, 0.15, 0.15⟩
      (94 * 150 + 94) ≠ 0 := by
  constructor
  · rw [profileFor_hospital]
    unfold cellW cellH cutoffMultiplier
    norm_num
  · rw [generateScalarField_apply [⟨0.0755, 0.0755, "hospital"⟩] ⟨0, 0, 0.15, 0.15⟩ 94 94
      (by norm_num)]
    simp only [List.map_cons, List.map_nil, List.sum_cons, List.sum_nil, add_zero]
    have hcov : coversCell ⟨0.0755, 0.0755, "hospital"⟩ ⟨0, 0, 0.15, 0.15⟩ 94 94 := by
      have hcw : cellW ⟨0, 0, 0.15, 0.15⟩ = 0.001 := by unfold cellW; norm_num
      have hch : cellH ⟨0, 0, 0.15, 0.15⟩ = 0.001 := by unfold cellH; norm_num
      constructor
      · rw [xRangeList_eq _ _ (by rw [hcw]; norm_num), mem_intRange]
        norm_num [profileFor_hospital, cellW, cutoffMultiplier, max_le_iff, le_min_iff,
          Int.floor_le_iff, Int.le_ceil_iff]
      · rw [yRangeList_eq _ _ (by rw [hch]; norm_num), mem_intRange]
        norm_num [profileFor_hospital, cellH, cutoffMultiplier, max_le_iff, le_min_iff,
          Int.floor_le_iff, Int.le_ceil_iff]
    rw [if_pos hcov]
    exact ne_of_gt (gauss_pos _ _ _ _)

/-- C4 amended: for a single input point, every in-range grid cell whose
index lies outside the point's clamped rectangular cutoff cell range
(`[minX..maxX] x [minY..maxY]`, computed by flooring/ceiling
`(position ± cutoffMultiplier*sigma)` in cell units) keeps exactly its
pre-existing value, `0` in the fresh field; cells inside that rectangle
receive the point's Gaussian contribution even when their center is farther
than `cutoffMultiplier * sigma` from the point. -/
theorem C4_outside_rectangle_unmodified (r : Resource) (b : Bounds) (x y : ℤ)
    (hx0 : 0 ≤ x) (hx1 : x < 150) (_hy0 : 0 ≤ y) (_hy1 : y < 150)
    (h : ¬coversCell r b x y) :
    generateScalarField [r] b (y * 150 + x) = 0 := by
  rw [generateScalarField_apply [r] b x y ⟨hx0, by omega⟩]
  simp only [List.map_cons, List.map_nil, List.sum_cons, List.sum_nil, add_zero]
  rw [if_neg h]

/-- Witness for the amended C4: the same hospital point at `(0.0755, 0.0755)`
over the `[0, 0.15]^2` window, at cell `(120, 120)` — outside the cutoff
rectangle `[57..94] x [57..94]` — whose value is exactly `0`. -/
theorem C4_outside_rectangle_unmodified_witness :
    generateScalarField [⟨0.0755, 0.0755, "hospital"⟩] ⟨0, 0, 0.15, 0.15⟩
      (120 * 150 + 120) = 0 := by
  apply C4_outside_rectangle_unmodified _ _ 120 120 (by norm_num) (by norm_num) (by norm_num)
    (by norm_num)
  intro hcov
  have hcw : cellW ⟨0, 0, 0.15, 0.15⟩ = 0.001 := by unfold cellW; norm_num
  have hx := hcov.1
  rw [xRangeList_eq _ _ (by rw [hcw]; norm_num), mem_intRange] at hx
  norm_num [profileFor_hospital, cellW, cutoffMultiplier, le_min_iff, Int.le_ceil_iff] at hx

/-! ## Field bounds and the min/max scan -/

lemma generateScalarField_bounds (rs : List Resource) (b : Bounds) (x y : ℤ)
    (hx0 : 0 ≤ x) (hx1 : x < 150) :
    0 ≤ generateScalarField rs b (y * 150 + x) ∧
      generateScalarField rs b (y * 150 + x) ≤ (rs.length : ℝ) := by
  rw [generateScalarField_apply rs b x y ⟨hx0, by omega⟩]
  have hbd : ∀ v ∈ rs.map (fun r => if coversCell r b x y then gauss r b x y else 0),
      0 ≤ v ∧ v ≤ 1 := by
    intro v hv
    simp only [List.mem_map] at hv
    obtain ⟨r, hr, rfl⟩ := hv
    by_cases hc : coversCell r b x y
    · rw [if_pos hc]
      exact ⟨le_of_lt (gauss_pos _ _ _ _), gauss_le_one _ _ _ _⟩
    · rw [if_neg hc]
      norm_num
  have hs := list_sum_bounds _ hbd
  rw [List.length_map] at hs
  exact hs

lemma scanStep_fin (a c v : ℝ) :
    scanStep (.fin a, .fin c) v =
      (.fin (if v < a then v else a), .fin (if c < v then v else c)) := by
  simp only [scanStep, JsNum.lt, Prod.mk.injEq]
  constructor <;> split_ifs <;> rfl

lemma scanFold_nonneg (l : List ℝ) :
    ∀ a c : ℝ, (∀ v ∈ l, 0 ≤ v) → 0 ≤ a → a ≤ c →
      ∃ mn mx : ℝ, l.foldl scanStep (JsNum.fin a, JsNum.fin c) = (.fin mn, .fin mx) ∧
        0 ≤ mn ∧ mn ≤ mx := by
  induction l with
  | nil =>
      intro a c _ ha hac
      exact ⟨a, c, rfl, ha, hac⟩
  | cons v l ih =>
      intro a c h ha hac
      rw [List.foldl_cons, scanStep_fin]
      have hv : 0 ≤ v := h v (List.mem_cons_self _ _)
      refine ih _ _ (fun w hw => h w (List.mem_cons_of_mem _ hw)) ?_ ?_
      · split_ifs <;> linarith
      · split_ifs <;> linarith

lemma scanMinMax_nonneg (l : List ℝ) (hne : l ≠ []) (h : ∀ v ∈ l, 0 ≤ v) :
    ∃ mn mx : ℝ, scanMinMax l = (.fin mn, .fin mx) ∧ 0 ≤ mn ∧ mn ≤ mx := by
  cases l with
  | nil => exact absurd rfl hne
  | cons v l =>
      unfold scanMinMax
      rw [List.foldl_cons]
      have hstep : scanStep (.inf, .ninf) v = (.fin v, .fin v) := by
        simp [scanStep, JsNum.lt]
      rw [hstep]
      exact scanFold_nonneg l v v (fun w hw => h w (List.mem_cons_of_mem _ hw))
        (h v (List.mem_cons_self _ _)) le_rfl

/-- C9: for a degenerate geographic window (`south == north` or
`west == east`, hence a zero cell size), `generateScalarField` still returns
a grid with no `Infinity` and no `NaN`: the cutoff-range computation —
embedded with full JavaScript division-by-zero semantics (`JsNum`) — only
ever steers which cells are visited, and every visited cell accumulates
finite Gaussian terms, so every grid cell is a well-defined real, bounded
between `0` and the number of points. -/
theorem C9_degenerate_window_no_nan (rs : List Resource) (b : Bounds)
    (_hdeg : b.south = b.north ∨ b.west = b.east) (x y : ℤ)
    (hx0 : 0 ≤ x) (hx1 : x < 150) (_hy0 : 0 ≤ y) (_hy1 : y < 150) :
    0 ≤ generateScalarField rs b (y * 150 + x) ∧
      generateScalarField rs b (y * 150 + x) ≤ (rs.length : ℝ) :=
  generateScalarField_bounds rs b x y hx0 hx1

/-- Witness for C9: a single clinic point over the degenerate window with
`south = north = 0`. -/
theorem C9_witness :
    0 ≤ generateScalarField [⟨1, 2, "clinic"⟩] ⟨0, 0, 0, 5⟩ (0 * 150 + 0) ∧
      generateScalarField [⟨1, 2, "clinic"⟩] ⟨0, 0, 0, 5⟩ (0 * 150 + 0) ≤
        (([⟨1, 2, "clinic"⟩] : List Resource).length : ℝ) :=
  C9_degenerate_window_no_nan [⟨1, 2, "clinic"⟩] ⟨0, 0, 0, 5⟩ (Or.inl rfl) 0 0
    (by norm_num) (by norm_num) (by norm_num) (by norm_num)

/-- C10: for every point list and non-degenerate window, every grid cell is
finite and non-negative (each Gaussian term is positive and only ever
added), bounded by the number of points; consequently the min/max scan of
`generateContours` yields finite `fieldMin`/`fieldMax` with
`0 ≤ fieldMin ≤ fieldMax`. -/
theorem C10_field_nonneg_min_le_max (rs : List Resource) (b : Bounds)
    (_hwe : b.west < b.east) (_hsn : b.south < b.north) :
    (∀ x y : ℤ, 0 ≤ x → x < 150 → 0 ≤ y → y < 150 →
        0 ≤ generateScalarField rs b (y * 150 + x) ∧
          generateScalarField rs b (y * 150 + x) ≤ (rs.length : ℝ)) ∧
    (∃ mn mx : ℝ,
        scanMinMax (fieldList (generateScalarField rs b)) = (.fin mn, .fin mx) ∧
          0 ≤ mn ∧ mn ≤ mx) := by
  refine ⟨fun x y hx0 hx1 _ _ => generateScalarField_bounds rs b x y hx0 hx1, ?_⟩
  apply scanMinMax_nonneg
  · intro hnil
    have hlen : (fieldList (generateScalarField rs b)).length = 150 * 150 := by
      unfold fieldList
      simp
    rw [hnil] at hlen
    simp at hlen
  · intro v hv
    unfold fieldList at hv
    simp only [List.mem_map, List.mem_range] at hv
    obtain ⟨k, hk, rfl⟩ := hv
    have hx0 : (0 : ℤ) ≤ (k : ℤ) % 150 := Int.emod_nonneg _ (by norm_num)
    have hx1 : (k : ℤ) % 150 < 150 := Int.emod_lt_of_pos _ (by norm_num)
    have hdecomp : ((k : ℤ) / 150) * 150 + (k : ℤ) % 150 = (k : ℤ) := by omega
    have hb := generateScalarField_bounds rs b ((k : ℤ) % 150) ((k : ℤ) / 150) hx0 hx1
    rw [hdecomp] at hb
    exact hb.1

/-- Witness for C10: the empty point list over the unit window. -/
theorem C10_witness :
    (0 ≤ generateScalarField [] ⟨0, 0, 1, 1⟩ (0 * 150 + 0) ∧
      generateScalarField [] ⟨0, 0, 1, 1⟩ (0 * 150 + 0) ≤
        (([] : List Resource).length : ℝ)) ∧
    (∃ mn mx : ℝ,
        scanMinMax (fieldList (generateScalarField [] ⟨0, 0, 1, 1⟩)) = (.fin mn, .fin mx) ∧
          0 ≤ mn ∧ mn ≤ mx) :=
  ⟨(C10_field_nonneg_min_le_max [] ⟨0, 0, 1, 1⟩ (by norm_num) (by norm_num)).1 0 0
      (by norm_num) (by norm_num) (by norm_num) (by norm_num),
   (C10_field_nonneg_min_le_max [] ⟨0, 0, 1, 1⟩ (by norm_num) (by norm_num)).2⟩

/-! ## Contour generation: threshold arithmetic -/

lemma JsNum.add_fin (a b : ℝ) : JsNum.add (.fin a) (.fin b) = .fin (a + b) := rfl

lemma JsNum.sub_fin (a b : ℝ) : JsNum.sub (.fin a) (.fin b) = .fin (a - b) := rfl

lemma JsNum.mul_fin (a b : ℝ) : JsNum.mul (.fin a) (.fin b) = .fin (a * b) := rfl

lemma JsNum.div_fin (a b : ℝ) (h : b ≠ 0) : JsNum.div (.fin a) (.fin b) = .fin (a / b) := by
  simp [JsNum.div, h]

lemma JsNum.lt_fin (a b : ℝ) : JsNum.lt (.fin a) (.fin b) ↔ a < b := Iff.rfl

lemma jsOrN_pos (o : Option ℕ) : 0 < jsOrN o 12 := by
  cases o with
  | none => norm_num [jsOrN]
  | some v =>
      by_cases hv : v = 0 <;> simp [jsOrN, hv]
      omega

lemma generateContours_eq (geom : ℤ → ℤ → List ℝ → JsNum → Rings) (field : List ℝ)
    (ow oh : Option ℤ) (ol : Option ℕ) (mn mx : ℝ)
    (hscan : scanMinMax field = (.fin mn, .fin mx)) (hge : ¬mx < 0.01)
    (hne : mx - mn ≠ 0) :
    generateContours geom field ow oh ol =
      (List.range (jsOrN ol 12)).map (fun i =>
        { value := .fin (thVal mn mx (jsOrN ol 12) i)
          coordinates :=
            geom (jsOrZ ow 150) (jsOrZ oh 150) field (.fin (thVal mn mx (jsOrN ol 12) i))
          normalizedValue := .fin ((thVal mn mx (jsOrN ol 12) i - mn) / (mx - mn)) }) := by
  have hL : ((jsOrN ol 12 : ℝ) + 1) ≠ 0 := by positivity
  unfold generateContours
  rw [hscan]
  simp only []
  rw [if_neg (show ¬JsNum.lt (.fin mx) (.fin 0.01) from hge)]
  rw [List.map_map]
  apply List.map_congr_left
  intro i hi
  simp only [Function.comp, JsNum.sub_fin, JsNum.mul_fin, JsNum.add_fin, JsNum.div_fin,
    hL, hne, ne_eq, not_false_iff, thVal]

/-- C2: whenever the scanned field maximum is at least the `0.01` floor and
strictly exceeds the scanned minimum, `generateContours` produces exactly
`levelCount` contours, the `i`-th (0-based) carrying threshold value
`min + step * (i+1)` with `step = (max - min) / (levelCount + 1)` and
`normalizedValue = (thresholdValue - min) / (max - min)`; the thresholds
exclude both the field minimum and maximum, both sequences are strictly
ascending, and every `normalizedValue` lies in `[0, 1]`. -/
theorem C2_threshold_arithmetic (geom : ℤ → ℤ → List ℝ → JsNum → Rings) (field : List ℝ)
    (ow oh : Option ℤ) (ol : Option ℕ) (mn mx : ℝ)
    (hscan : scanMinMax field = (.fin mn, .fin mx))
    (hfloor : 0.01 ≤ mx) (hlt : mn < mx) :
    (generateContours geom field ow oh ol =
      (List.range (jsOrN ol 12)).map (fun i =>
        { value := .fin (thVal mn mx (jsOrN ol 12) i)
          coordinates :=
            geom (jsOrZ ow 150) (jsOrZ oh 150) field (.fin (thVal mn mx (jsOrN ol 12) i))
          normalizedValue := .fin ((thVal mn mx (jsOrN ol 12) i - mn) / (mx - mn)) })) ∧
    (generateContours geom field ow oh ol).length = jsOrN ol 12 ∧
    (∀ i : ℕ, i < jsOrN ol 12 →
        mn < thVal mn mx (jsOrN ol 12) i ∧ thVal mn mx (jsOrN ol 12) i < mx ∧
          0 ≤ (thVal mn mx (jsOrN ol 12) i - mn) / (mx - mn) ∧
          (thVal mn mx (jsOrN ol 12) i - mn) / (mx - mn) ≤ 1) ∧
    (∀ i j : ℕ, i < j →
        thVal mn mx (jsOrN ol 12) i < thVal mn mx (jsOrN ol 12) j ∧
          (thVal mn mx (jsOrN ol 12) i - mn) / (mx - mn) <
            (thVal mn mx (jsOrN ol 12) j - mn) / (mx - mn)) := by
  have hne : mx - mn ≠ 0 := sub_ne_zero.mpr (ne_of_gt hlt)
  have hmm : 0 < mx - mn := sub_pos.mpr hlt
  have heq := generateContours_eq geom field ow oh ol mn mx hscan (by linarith) hne
  have hLpos : (0 : ℝ) < (jsOrN ol 12 : ℝ) + 1 := by positivity
  have hstep : 0 < (mx - mn) / ((jsOrN ol 12 : ℝ) + 1) := div_pos hmm hLpos
  refine ⟨heq, ?_, ?_, ?_⟩
  · rw [heq]
    simp
  · intro i hi
    have hiL : (i : ℝ) < (jsOrN ol 12 : ℝ) := by exact_mod_cast hi
    have hpos : 0 < (mx - mn) / ((jsOrN ol 12 : ℝ) + 1) * ((i : ℝ) + 1) :=
      mul_pos hstep (by positivity)
    have hcan : (mx - mn) / ((jsOrN ol 12 : ℝ) + 1) * ((jsOrN ol 12 : ℝ) + 1) = mx - mn :=
      div_mul_cancel₀ _ (ne_of_gt hLpos)
    have hlt2 : (mx - mn) / ((jsOrN ol 12 : ℝ) + 1) * ((i : ℝ) + 1) <
        (mx - mn) / ((jsOrN ol 12 : ℝ) + 1) * ((jsOrN ol 12 : ℝ) + 1) := by
      apply mul_lt_mul_of_pos_left _ hstep
      linarith
    have h1 : mn < thVal mn mx (jsOrN ol 12) i := by
      unfold thVal
      linarith
    have h2 : thVal mn mx (jsOrN ol 12) i < mx := by
      unfold thVal
      linarith [hcan]
    refine ⟨h1, h2, ?_, ?_⟩
    · apply div_nonneg _ (le_of_lt hmm)
      linarith
    · rw [div_le_one hmm]
      linarith
  · intro i j hij
    have hijR : (i : ℝ) < (j : ℝ) := by exact_mod_cast hij
    have h1 : thVal mn mx (jsOrN ol 12) i < thVal mn mx (jsOrN ol 12) j := by
      unfold thVal
      have := mul_lt_mul_of_pos_left (show (i : ℝ) + 1 < (j : ℝ) + 1 by linarith) hstep
      linarith
    refine ⟨h1, ?_⟩
    rw [div_lt_div_iff_of_pos_right hmm]
    linarith

/-- Witness for C2: the two-cell field `[0, 1]` with the default options;
the scan yields `(0, 1)`, the floor and non-flatness hypotheses hold, and
twelve contours are produced. -/
theorem C2_threshold_arithmetic_witness :
    scanMinMax [0, 1] = (.fin 0, .fin 1) ∧ (0.01 : ℝ) ≤ 1 ∧ (0 : ℝ) < 1 ∧
      (generateContours (fun _ _ _ _ => []) [0, 1] none none none).length = jsOrN none 12 := by
  have hscan : scanMinMax [(0 : ℝ), 1] = (.fin 0, .fin 1) := by
    norm_num [scanMinMax, scanStep, JsNum.lt]
  exact ⟨hscan, by norm_num, by norm_num,
    (C2_threshold_arithmetic (fun _ _ _ _ => []) [0, 1] none none none 0 1 hscan
      (by norm_num) (by norm_num)).2.1⟩

/-! ## Flat fields and the below-floor short-circuit -/

lemma scanFold_const (n : ℕ) (c : ℝ) :
    (List.replicate n c).foldl scanStep (JsNum.fin c, JsNum.fin c) = (.fin c, .fin c) := by
  induction n with
  | zero => rfl
  | succ n ih =>
      rw [List.replicate_succ, List.foldl_cons, scanStep_fin]
      simp only [lt_self_iff_false, if_false]
      exact ih

lemma scanMinMax_replicate (n : ℕ) (c : ℝ) (hn : n ≠ 0) :
    scanMinMax (List.replicate n c) = (.fin c, .fin c) := by
  cases n with
  | zero => exact absurd rfl hn
  | succ n =>
      unfold scanMinMax
      rw [List.replicate_succ, List.foldl_cons]
      have hstep : scanStep (.inf, .ninf) c = (.fin c, .fin c) := by
        simp [scanStep, JsNum.lt]
      rw [hstep]
      exact scanFold_const n c

/-- C3 evaluation: on a perfectly flat `150 x 150` grid of constant value `1`
(which is `≥ 0.01`), `generateContours` does not return the empty sequence:
the `max < 0.01` guard passes, `step = (max - min)/(levels+1) = 0`, and the
source emits twelve contours, every one of whose `normalizedValue` is the
JavaScript `NaN` produced by the `0/0` normalization — contradicting the
spec's flat-field policy (empty sequence, no NaN anywhere). -/
theorem C3_flat_field_emits_nan :
    (generateContours (fun _ _ _ _ => []) (List.replicate (150 * 150) 1)
        none none none).length = 12 ∧
    (generateContours (fun _ _ _ _ => []) (List.replicate (150 * 150) 1)
        none none none).map (fun c => c.normalizedValue) = List.replicate 12 JsNum.nan := by
  have hscan : scanMinMax (List.replicate (150 * 150) (1 : ℝ)) = (.fin 1, .fin 1) :=
    scanMinMax_replicate _ _ (by norm_num)
  have hguard : ¬JsNum.lt (JsNum.fin 1) (.fin 0.01) := by
    rw [JsNum.lt_fin]
    norm_num
  have hsub : JsNum.sub (.fin 1) (.fin 1) = .fin 0 := by
    rw [JsNum.sub_fin]
    norm_num
  have hstep : JsNum.div (.fin 0) (.fin ((jsOrN none 12 : ℝ) + 1)) = .fin 0 := by
    rw [JsNum.div_fin _ _ (by norm_num [jsOrN])]
    norm_num
  have hnan : JsNum.div (.fin 0) (.fin 0) = JsNum.nan := by
    simp [JsNum.div]
  unfold generateContours
  rw [hscan]
  simp only []
  rw [if_neg hguard, hsub, hstep, List.map_map]
  constructor
  · simp [jsOrN]
  · rw [List.map_map]
    rw [List.eq_replicate_iff]
    refine ⟨by simp [jsOrN], ?_⟩
    intro v hv
    simp only [List.mem_map, List.mem_range, Function.comp] at hv
    obtain ⟨i, hi, rfl⟩ := hv
    simp only [JsNum.mul_fin, JsNum.add_fin, JsNum.sub_fin]
    rw [show (1 : ℝ) + 0 * ((i : ℝ) + 1) - 1 = 0 by ring]
    exact hnan

/-- C6: `generateContours` returns an empty sequence (not an error) whenever
the scanned field maximum is below the `0.01` floor; the empty point set
yields the all-zero grid, and contouring that grid yields the empty
sequence. -/
theorem C6_below_floor_empty :
    (∀ (geom : ℤ → ℤ → List ℝ → JsNum → Rings) (field : List ℝ)
        (ow oh : Option ℤ) (ol : Option ℕ),
        JsNum.lt (scanMinMax field).2 (.fin 0.01) →
        generateContours geom field ow oh ol = []) ∧
    (∀ (b : Bounds) (i : ℤ), generateScalarField [] b i = 0) ∧
    (∀ (geom : ℤ → ℤ → List ℝ → JsNum → Rings) (b : Bounds)
        (ow oh : Option ℤ) (ol : Option ℕ),
        generateContours geom (fieldList (generateScalarField [] b)) ow oh ol = []) := by
  have hpart1 : ∀ (geom : ℤ → ℤ → List ℝ → JsNum → Rings) (field : List ℝ)
      (ow oh : Option ℤ) (ol : Option ℕ),
      JsNum.lt (scanMinMax field).2 (.fin 0.01) →
      generateContours geom field ow oh ol = [] := by
    intro geom field ow oh ol h
    unfold generateContours
    simp only [if_pos h]
  have hpart2 : ∀ (b : Bounds) (i : ℤ), generateScalarField [] b i = 0 := by
    intro b i
    rfl
  refine ⟨hpart1, hpart2, ?_⟩
  intro geom b ow oh ol
  apply hpart1
  have hrepl : fieldList (generateScalarField [] b) = List.replicate (150 * 150) 0 := by
    unfold fieldList
    rw [show (fun (k : ℕ) => generateScalarField [] b (k : ℤ)) = fun _ => (0 : ℝ) from
      funext (fun k => hpart2 b k)]
    rw [List.eq_replicate_iff]
    constructor
    · rw [List.length_map, List.length_range]
    · intro v hv
      simp only [List.mem_map] at hv
      obtain ⟨k, _, rfl⟩ := hv
      rfl
  rw [hrepl, scanMinMax_replicate _ _ (by norm_num)]
  rw [show ((JsNum.fin 0, JsNum.fin 0) : JsNum × JsNum).2 = JsNum.fin 0 from rfl, JsNum.lt_fin]
  norm_num

/-- Witness for C6: the one-cell field `[0]` (scan maximum `0 < 0.01`), and
the all-zero pipeline over the unit window. -/
theorem C6_below_floor_empty_witness :
    JsNum.lt (scanMinMax [0]).2 (.fin 0.01) ∧
      generateContours (fun _ _ _ _ => []) [0] none none none = [] ∧
      generateScalarField [] ⟨0, 0, 1, 1⟩ 0 = 0 ∧
      generateContours (fun _ _ _ _ => [])
        (fieldList (generateScalarField [] ⟨0, 0, 1, 1⟩)) none none none = [] := by
  have h : JsNum.lt (scanMinMax [(0 : ℝ)]).2 (.fin 0.01) := by
    norm_num [scanMinMax, scanStep, JsNum.lt]
  exact ⟨h, C6_below_floor_empty.1 _ [0] none none none h,
    C6_below_floor_empty.2.1 ⟨0, 0, 1, 1⟩ 0,
    C6_below_floor_empty.2.2 _ ⟨0, 0, 1, 1⟩ none none none⟩

/-! ## Coordinate transforms and the pipeline -/

/-- C5: `transformToPixels` maps each ring vertex `(x, y)` to
`(left + x * scaleX, top + (gridHeight - y) * scaleY)` with
`scaleX = width/gridWidth` and `scaleY = height/gridHeight`
(`gridWidth = gridHeight = 150`); consequently, for fixed `x` and positive
raster height, the pixel y-value is strictly decreasing as the grid `y`
increases — the mandatory vertical flip. -/
theorem C5_transformToPixels_flip :
    (∀ (contours : List Contour) (pb : PixelBounds),
        transformToPixels contours pb = contours.map (fun c =>
          { value := c.value
            coordinates := c.coordinates
            normalizedValue := c.normalizedValue
            pixelCoordinates := c.coordinates.map (fun polygon =>
              polygon.map (fun ring => ring.map (toPixelVertex pb))) })) ∧
    (∀ (pb : PixelBounds) (x y : ℝ),
        toPixelVertex pb (x, y) =
          (pb.left + x * (pb.width / 150), pb.top + (150 - y) * (pb.height / 150))) ∧
    (∀ (pb : PixelBounds) (x y1 y2 : ℝ), 0 < pb.height → y1 < y2 →
        (toPixelVertex pb (x, y2)).2 < (toPixelVertex pb (x, y1)).2) := by
  refine ⟨fun contours pb => rfl, fun pb x y => rfl, ?_⟩
  intro pb x y1 y2 hh hy
  unfold toPixelVertex
  simp only
  have hs : 0 < pb.height / 150 := by positivity
  have hmul := mul_lt_mul_of_pos_right (show (150 : ℝ) - y2 < 150 - y1 by linarith) hs
  linarith

/-- Witness for C5: the raster window `{left 0, top 0, 150 x 150}`; raising
grid `y` from `0` to `1` strictly lowers the pixel y-value. -/
theorem C5_transformToPixels_flip_witness :
    (0 : ℝ) < (⟨0, 0, 150, 150⟩ : PixelBounds).height ∧ (0 : ℝ) < 1 ∧
      (toPixelVertex ⟨0, 0, 150, 150⟩ (3, 1)).2 < (toPixelVertex ⟨0, 0, 150, 150⟩ (3, 0)).2 :=
  ⟨by norm_num, by norm_num,
    C5_transformToPixels_flip.2.2 ⟨0, 0, 150, 150⟩ 3 0 1 (by norm_num) (by norm_num)⟩

/-- C7: both transforms are pure maps over ring vertices: they preserve the
contour count, the number of polygons, rings per polygon, and vertices per
ring (`ringShape`), and `transformToPixels` carries the input `coordinates`,
`value`, and `normalizedValue` through unchanged (the embedding is purely
functional, so the inputs themselves are never mutated). -/
theorem C7_transforms_preserve_structure :
    ∀ (contours : List Contour) (b : Bounds) (pb : PixelBounds),
      (transformToGeo contours b).length = contours.length ∧
      (transformToGeo contours b).map (fun c => ringShape c.coordinates) =
        contours.map (fun c => ringShape c.coordinates) ∧
      (transformToPixels contours pb).length = contours.length ∧
      (transformToPixels contours pb).map (fun c => ringShape c.pixelCoordinates) =
        contours.map (fun c => ringShape c.coordinates) ∧
      (transformToPixels contours pb).map (fun c => c.coordinates) =
        contours.map (fun c => c.coordinates) ∧
      (transformToPixels contours pb).map (fun c => c.value) =
        contours.map (fun c => c.value) ∧
      (transformToPixels contours pb).map (fun c => c.normalizedValue) =
        contours.map (fun c => c.normalizedValue) := by
  intro contours b pb
  refine ⟨?_, ?_, ?_, ?_, ?_, ?_, ?_⟩ <;>
    simp [transformToGeo, transformToPixels, ringShape, List.map_map, Function.comp]

/-- C8: `process` is deterministic and stateless: two calls with identical
points, geographic window, and raster window (under the same configuration
and contour generator) produce identical results — the same contour list,
the same field, and the same statistics. -/
theorem C8_process_deterministic :
    ∀ (geom : ℤ → ℤ → List ℝ → JsNum → Rings) (rs1 rs2 : List Resource)
      (b1 b2 : Bounds) (pb1 pb2 : PixelBounds),
      rs1 = rs2 → b1 = b2 → pb1 = pb2 →
      process geom rs1 b1 pb1 = process geom rs2 b2 pb2 := by
  intro geom rs1 rs2 b1 b2 pb1 pb2 h1 h2 h3
  rw [h1, h2, h3]

/-- Witness for C8: two identical pipeline calls on a concrete input. -/
theorem C8_process_deterministic_witness :
    process (fun _ _ _ _ => []) [⟨1, 1, "library"⟩] ⟨0, 0, 1, 1⟩ ⟨0, 0, 100, 100⟩ =
      process (fun _ _ _ _ => []) [⟨1, 1, "library"⟩] ⟨0, 0, 1, 1⟩ ⟨0, 0, 100, 100⟩ :=
  C8_process_deterministic (fun _ _ _ _ => []) [⟨1, 1, "library"⟩] [⟨1, 1, "library"⟩]
    ⟨0, 0, 1, 1⟩ ⟨0, 0, 1, 1⟩ ⟨0, 0, 100, 100⟩ ⟨0, 0, 100, 100⟩ rfl rfl rfl

